import Mathlib

/-!
Verification of the stress-client command-loop scheduler
(`test/stress-client.js` of the moray test suite).

The development embeds, in Lean:

* the JavaScript error values handled by the harness (`JsError`), together
  with the `verror` library operations the harness calls
  (`findCauseByName`, the `VError` wrapping constructor);
* the pure helper functions of the harness (`ignoreErrorTypes`,
  `cbIgnoreErrorTypes`);
* the per-command scheduler (`scCommandStart` / `scCommandLoop` /
  `scWatchdogFire`) as a labelled transition system over `ScState`,
  one machine per registered command, with events for the asynchronous
  callbacks that drive the loop;
* the scenario `exec` routines the claims are about
  (`cmdRpcNeverConnected`, `cmdRpcReconnectClientFail`, `cmdRpcFail`),
  as functions of the outcomes supplied by the environment (the RPC
  client collaborator);
* the kang introspection handlers (`knListTypes`, `knListObjects`,
  `knGetObject`).
-/

/-! ## JavaScript error values and the verror operations used by the harness -/

/-- A JavaScript error value as the harness observes it: a `name`
(the error class used by `VError.findCauseByName`), a `message`, and an
optional cause (the verror cause chain).  `base` models a plain `Error`
or a `VError` without a cause; `chained` models a `VError` wrapping a
cause. -/
inductive JsError where
  | base (name message : String)
  | chained (name message : String) (cause : JsError)
deriving DecidableEq, Repr

/-- Name of an error value. -/
def JsError.name : JsError → String
  | .base n _ => n
  | .chained n _ _ => n

/-- Message of an error value. -/
def JsError.message : JsError → String
  | .base _ m => m
  | .chained _ m _ => m

/-- Cause of an error value (`VError.cause`: `null` when there is none). -/
def JsError.cause : JsError → Option JsError
  | .base _ _ => none
  | .chained _ _ c => some c

/-- The cause chain of an error: the error itself followed by the chain of
its cause.  This is the list of errors that `VError.findCauseByName`
traverses. -/
def JsError.causeChain : JsError → List JsError
  | .base n m => [.base n m]
  | .chained n m c => .chained n m c :: c.causeChain

/-- The verror operation `VError.findCauseByName(err, name)`: walk the cause
chain of `err` and return the first error whose name is `name`, or `null`.
(The library's precondition that `err` is an `Error` is contributed by the
type; `findCauseByNameJs` below models the raw call on a possibly-null
value.) -/
def findCauseByName : JsError → String → Option JsError
  | .base n m, nm => if n = nm then some (.base n m) else none
  | .chained n m c, nm =>
      if n = nm then some (.chained n m c) else findCauseByName c nm

/-- The verror operation `VError.findCauseByName` as invoked on a raw
JavaScript value that may be `null`/`undefined`: the library asserts that
its first argument is an `Error` (`err must be an Error`) and throws
otherwise.  The harness's own `ignoreErrorTypes` guards against this with
its `if (!err)` check before calling `findCauseByName`; the direct call in
`cmdRpcNeverConnected` does not. -/
def findCauseByNameJs (err : Option JsError) (nm : String) :
    Except String (Option JsError) :=
  match err with
  | none => Except.error "err must be an Error"
  | some e => Except.ok (findCauseByName e nm)

/-- The verror constructor `new VError(msg)` (no cause): the resulting error
has name `VError` and the given message. -/
def verrorNew (msg : String) : JsError :=
  .base "VError" msg

/-- The verror constructor `new VError(cause, msg)`: the resulting error has
name `VError`, message `msg ++ ": " ++ cause.message`, and the given
cause. -/
def verrorWrap (cause : JsError) (msg : String) : JsError :=
  .chained "VError" (msg ++ ": " ++ cause.message) cause

/-- The error name is found in the chain iff some chain element bears it. -/
theorem findCauseByName_isSome_iff (e : JsError) (nm : String) :
    (findCauseByName e nm).isSome = true ↔ ∃ c ∈ e.causeChain, c.name = nm := by
  induction e with
  | base n m =>
    simp only [findCauseByName, JsError.causeChain]
    by_cases h : n = nm <;> simp [h, JsError.name]
  | chained n m c ih =>
    simp only [findCauseByName, JsError.causeChain]
    by_cases h : n = nm
    · simp [h, JsError.name]
    · simp only [h, if_false, List.mem_cons]
      rw [ih]
      constructor
      · rintro ⟨c1, hc1, hname⟩
        exact ⟨c1, Or.inr hc1, hname⟩
      · rintro ⟨c1, hc1 | hc1, hname⟩
        · subst hc1
          simp only [JsError.name] at hname
          exact absurd hname h
        · exact ⟨c1, hc1, hname⟩

/-! ## ignoreErrorTypes and cbIgnoreErrorTypes (source lines 190-217) -/

/-- The loop body of `ignoreErrorTypes` over the list of error type names:
return `null` as soon as some name is found in the cause chain of `e`,
otherwise return `e` itself. -/
def ignoreErrorTypesLoop (e : JsError) : List String → Option JsError
  | [] => some e
  | t :: rest =>
      if (findCauseByName e t).isSome then none else ignoreErrorTypesLoop e rest

/-- The harness helper `ignoreErrorTypes(err, errtypes)`: `null` passes
through unchanged (`if (!err) return (err)`), and an error is replaced by
`null` exactly when its cause chain contains one of the listed error type
names. -/
def ignoreErrorTypes (err : Option JsError) (errtypes : List String) :
    Option JsError :=
  match err with
  | none => none
  | some e => ignoreErrorTypesLoop e errtypes

/-- The harness helper `cbIgnoreErrorTypes(callback, errtypes)`: wrap a
callback so that its first (error) argument is filtered through
`ignoreErrorTypes` and the remaining arguments are passed through
unchanged. -/
def cbIgnoreErrorTypes {α β : Type} (callback : Option JsError → List α → β)
    (errtypes : List String) : Option JsError → List α → β :=
  fun err args => callback (ignoreErrorTypes err errtypes) args

theorem ignoreErrorTypesLoop_eq_none_iff (e : JsError) (ts : List String) :
    ignoreErrorTypesLoop e ts = none ↔ ∃ t ∈ ts, ∃ c ∈ e.causeChain, c.name = t := by
  induction ts with
  | nil => simp [ignoreErrorTypesLoop]
  | cons t rest ih =>
    simp only [ignoreErrorTypesLoop]
    by_cases h : (findCauseByName e t).isSome = true
    · rw [if_pos h]
      rw [findCauseByName_isSome_iff] at h
      simpa using Or.inl h
    · rw [if_neg h]
      rw [ih]
      constructor
      · rintro ⟨t1, ht1, hc⟩
        exact ⟨t1, List.mem_cons_of_mem _ ht1, hc⟩
      · rintro ⟨t1, ht1, hc⟩
        rcases List.mem_cons.mp ht1 with h1 | h1
        · subst h1
          rw [findCauseByName_isSome_iff] at h
          exact absurd hc h
        · exact ⟨t1, h1, hc⟩

theorem ignoreErrorTypesLoop_eq_self_or_none (e : JsError) (ts : List String) :
    ignoreErrorTypesLoop e ts = some e ∨ ignoreErrorTypesLoop e ts = none := by
  induction ts with
  | nil => exact Or.inl rfl
  | cons t rest ih =>
    simp only [ignoreErrorTypesLoop]
    by_cases h : (findCauseByName e t).isSome = true
    · rw [if_pos h]
      exact Or.inr rfl
    · rw [if_neg h]
      exact ih

/-! ## The per-command scheduler as a labelled transition system

One machine per registered command spec.  The machine state carries the
command's `CommandContext` (`ScCtx`, the fields assigned in
`scCommandStart`, source lines 134-142), the set of currently armed
watchdog timeouts (`armed`, what `setTimeout`/`clearTimeout` manipulate,
distinct from the `timer` *field* of the context), a clock, and a phase
tracking which callback the loop is waiting for. -/

/-- The per-command watchdog budget, milliseconds (source line 60:
`var scWatchdogLimit = 30000`). -/
def scWatchdogLimit : Nat := 30000

/-- How the watchdog fire handler ends the process: `abortDump` is
`process.abort()` (immediate, core-dumping); `gracefulExit` is a normal
`process.exit(code)`.  The handler in the source only ever uses
`abortDump`. -/
inductive TermAction where
  | abortDump
  | gracefulExit (code : Nat)
deriving DecidableEq, Repr

/-- The observable behavior of `scWatchdogFire` (source lines 178-188):
which command name it reports as hung, and how it terminates the
process. -/
structure FireAction where
  hungCommand : String
  action : TermAction
deriving DecidableEq, Repr

/-- The fire handler `scWatchdogFire(cmdspec)`: report the name of the hung
command, then `process.abort()` to dump core. -/
def scWatchdogFire (cmdName : String) : FireAction :=
  { hungCommand := cmdName, action := TermAction.abortDump }

/-- The `CommandContext` fields assigned by `scCommandStart` and
`scCommandLoop` (source lines 134-142, 158-163).  Timestamps are clock
readings (`new Date()`); `timer` is the *field* `ctx.timer`, holding the
identifier of the most recently armed watchdog timeout. -/
structure ScCtx where
  nstarted : Nat
  lastStarted : Option Nat
  setupStarted : Option Nat
  setupDone : Option Nat
  timer : Option Nat
deriving DecidableEq, Repr

/-- Which asynchronous callback the per-command machine is waiting for.

* `unstarted`: before `scCommandStart` runs.
* `settingUp`: `cmdspec.setup` invoked, waiting for its callback.
* `execOutstanding`: `scCommandLoop` armed the watchdog and invoked
  `cmdspec.exec`; an iteration is in flight.
* `loopQueued`: exec's callback returned success and posted the next
  `scCommandLoop` run with `setImmediate`; no iteration is in flight.
* `setupFailed`: setup reported an error (wrapped and passed to the start
  callback, source lines 145-148).
* `crashed`: exec reported an error; the wrapped error was logged at fatal
  level and thrown (source lines 168-172).
* `aborted`: the watchdog fired and `scWatchdogFire` terminated the
  process (source lines 178-188). -/
inductive ScPhase where
  | unstarted
  | settingUp
  | execOutstanding
  | loopQueued
  | setupFailed (e : JsError)
  | crashed (e : JsError)
  | aborted (f : FireAction)
deriving DecidableEq, Repr

/-- State of one command's machine.  `armed` lists the live (armed, not yet
fired or cleared) watchdog timeouts as pairs of timeout identifier and
absolute deadline; `nextTimerId` supplies fresh timeout identifiers;
`fatalLogged` records the errors logged via `ctx.log.fatal`. -/
structure ScState where
  name : String
  phase : ScPhase
  ctx : ScCtx
  armed : List (Nat × Nat)
  now : Nat
  nextTimerId : Nat
  fatalLogged : List JsError
deriving DecidableEq, Repr

/-- The events that drive one command's machine: the entry points of
`scCommandStart`, the callbacks of `setup` and `exec`, the `setImmediate`d
re-entry of `scCommandLoop`, the watchdog timeout firing, and the passage
of time. -/
inductive ScEvent where
  | start
  | setupDone (err : Option JsError)
  | loopRun
  | execReturn (err : Option JsError)
  | watchdogFire
  | tick (dt : Nat)
deriving DecidableEq, Repr

/-- The body of `scCommandLoop` up to and including the invocation of
`cmdspec.exec` (source lines 158-165): increment `nstarted`, record
`lastStarted`, arm a fresh watchdog timeout with deadline
`now + scWatchdogLimit` and store its handle in `ctx.timer`, and leave the
iteration outstanding. -/
def scCommandLoopEnter (s : ScState) : ScState :=
  { s with
    phase := ScPhase.execOutstanding,
    ctx := { s.ctx with
      nstarted := s.ctx.nstarted + 1,
      lastStarted := some s.now,
      timer := some s.nextTimerId },
    armed := (s.nextTimerId, s.now + scWatchdogLimit) :: s.armed,
    nextTimerId := s.nextTimerId + 1 }

/-- The effect of `clearTimeout(handle)` on the armed timeouts: remove the
timeout with that identifier; with a `null` handle it is a no-op.  Note
that `clearTimeout` does not touch the `ctx.timer` field. -/
def clearTimeoutJs (armedList : List (Nat × Nat)) :
    Option Nat → List (Nat × Nat)
  | none => armedList
  | some tid => armedList.filter (fun p => p.1 ≠ tid)

/-- One step of the per-command machine; `none` when the event cannot occur
in the current state.

* `start` is `scCommandStart` (source lines 132-153): initialize the
  context (`nstarted = 0`, `lastStarted = null`, `setupStarted = now`,
  `setupDone = null`, `timer = null`) and invoke `setup`.
* `setupDone err` is setup's callback: on error, wrap it as
  `setup command "<name>"` and fail; on success, record `setupDone` and
  call `scCommandLoop` synchronously (line 151).
* `loopRun` is the `setImmediate(scCommandLoop, cmdspec)` continuation
  (line 174) actually running.
* `execReturn err` is exec's callback (lines 165-175):
  `clearTimeout(ctx.timer)` always; on error, wrap as
  `exec command "<name>"`, log it fatal, and throw (terminal); on
  success, post the next loop run with `setImmediate`.
* `watchdogFire` is an armed timeout reaching its deadline: run
  `scWatchdogFire`, which reports the command and aborts the process.
* `tick dt` advances the clock (only while the process is alive). -/
def scStep (s : ScState) : ScEvent → Option ScState
  | ScEvent.start =>
      match s.phase with
      | ScPhase.unstarted =>
          some { s with
            phase := ScPhase.settingUp,
            ctx := { nstarted := 0, lastStarted := none,
                     setupStarted := some s.now, setupDone := none,
                     timer := none } }
      | _ => none
  | ScEvent.setupDone err =>
      match s.phase with
      | ScPhase.settingUp =>
          match err with
          | some e =>
              some { s with
                phase := ScPhase.setupFailed
                  (verrorWrap e ("setup command \"" ++ s.name ++ "\"")) }
          | none =>
              some (scCommandLoopEnter
                { s with ctx := { s.ctx with setupDone := some s.now } })
      | _ => none
  | ScEvent.loopRun =>
      match s.phase with
      | ScPhase.loopQueued => some (scCommandLoopEnter s)
      | _ => none
  | ScEvent.execReturn err =>
      match s.phase with
      | ScPhase.execOutstanding =>
          let cleared := clearTimeoutJs s.armed s.ctx.timer
          match err with
          | some e =>
              let wrapped := verrorWrap e ("exec command \"" ++ s.name ++ "\"")
              some { s with
                phase := ScPhase.crashed wrapped,
                armed := cleared,
                fatalLogged := wrapped :: s.fatalLogged }
          | none =>
              some { s with phase := ScPhase.loopQueued, armed := cleared }
      | _ => none
  | ScEvent.watchdogFire =>
      match s.armed with
      | (_, dl) :: _ =>
          if dl ≤ s.now then
            some { s with
              phase := ScPhase.aborted (scWatchdogFire s.name), armed := [] }
          else none
      | [] => none
  | ScEvent.tick dt =>
      match s.phase with
      | ScPhase.unstarted => some { s with now := s.now + dt }
      | ScPhase.settingUp => some { s with now := s.now + dt }
      | ScPhase.execOutstanding => some { s with now := s.now + dt }
      | ScPhase.loopQueued => some { s with now := s.now + dt }
      | _ => none

/-- Initial state of a command's machine, before `scCommandStart`. -/
def scInit (nm : String) : ScState :=
  { name := nm,
    phase := ScPhase.unstarted,
    ctx := { nstarted := 0, lastStarted := none, setupStarted := none,
             setupDone := none, timer := none },
    armed := [],
    now := 0,
    nextTimerId := 0,
    fatalLogged := [] }

/-- Run a sequence of events from a state, failing if any event is not
enabled. -/
def scRun (s : ScState) : List ScEvent → Option ScState
  | [] => some s
  | e :: es =>
      match scStep s e with
      | some s1 => scRun s1 es
      | none => none

/-- Reachable states of a command's machine: the initial state of any
command, closed under enabled steps. -/
inductive ScReach : ScState → Prop where
  | init (nm : String) : ScReach (scInit nm)
  | step {s s' : ScState} {e : ScEvent} :
      ScReach s → scStep s e = some s' → ScReach s'

/-! ## Invariants of the per-command machine -/

/-- The inductive invariant of one command's machine:

1. a watchdog timeout is armed iff an iteration is outstanding;
2. at most one watchdog timeout is armed at any time;
3. the `ctx.timer` field is non-null iff at least one iteration has ever
   started;
4. before and during setup, no iteration has started and `ctx.timer` is
   null;
5. the armed timeout (when there is one) is the one whose handle is stored
   in `ctx.timer`, and its deadline is `lastStarted + scWatchdogLimit`. -/
def ScInv (s : ScState) : Prop :=
  (s.phase = ScPhase.execOutstanding ↔ s.armed ≠ []) ∧
  s.armed.length ≤ 1 ∧
  (s.ctx.timer ≠ none ↔ 1 ≤ s.ctx.nstarted) ∧
  ((s.phase = ScPhase.unstarted ∨ s.phase = ScPhase.settingUp) →
    s.ctx.nstarted = 0 ∧ s.ctx.timer = none) ∧
  (∀ td dl, s.armed = [(td, dl)] →
    s.ctx.timer = some td ∧
    ∃ t, s.ctx.lastStarted = some t ∧ dl = t + scWatchdogLimit)

theorem scInv_init (nm : String) : ScInv (scInit nm) := by
  refine ⟨?_, ?_, ?_, ?_, ?_⟩ <;> simp [scInit]

theorem scInv_loopEnter {s : ScState} (harmed : s.armed = []) :
    ScInv (scCommandLoopEnter s) := by
  refine ⟨?_, ?_, ?_, ?_, ?_⟩ <;>
    simp [scCommandLoopEnter, harmed]

theorem scInv_step {s s' : ScState} {e : ScEvent} (hinv : ScInv s)
    (hstep : scStep s e = some s') : ScInv s' := by
  obtain ⟨h1, h2, h3, h4, h5⟩ := hinv
  cases e with
  | start =>
    cases hp : s.phase <;> simp only [scStep, hp] at hstep <;>
      try exact Option.noConfusion hstep
    obtain rfl := Option.some.inj hstep
    refine ⟨?_, ?_, ?_, ?_, ?_⟩ <;>
      simp_all [ScPhase.settingUp.sizeOf_spec]
  | setupDone err =>
    cases hp : s.phase <;> simp only [scStep, hp] at hstep <;>
      try exact Option.noConfusion hstep
    have harmed : s.armed = [] := by
      by_contra hne
      have := h1.mpr hne
      rw [hp] at this
      exact ScPhase.noConfusion this
    cases err with
    | some e =>
      simp only at hstep
      obtain rfl := Option.some.inj hstep
      refine ⟨?_, ?_, ?_, ?_, ?_⟩ <;> simp_all
    | none =>
      simp only at hstep
      obtain rfl := Option.some.inj hstep
      exact scInv_loopEnter (by simpa using harmed)
  | loopRun =>
    cases hp : s.phase <;> simp only [scStep, hp] at hstep <;>
      try exact Option.noConfusion hstep
    have harmed : s.armed = [] := by
      by_contra hne
      have := h1.mpr hne
      rw [hp] at this
      exact ScPhase.noConfusion this
    obtain rfl := Option.some.inj hstep
    exact scInv_loopEnter harmed
  | execReturn err =>
    cases hp : s.phase <;> simp only [scStep, hp] at hstep <;>
      try exact Option.noConfusion hstep
    have hne : s.armed ≠ [] := h1.mp hp
    obtain ⟨⟨td, dl⟩, rest, harm⟩ : ∃ x rest, s.armed = x :: rest := by
      cases hx : s.armed with
      | nil => exact absurd hx hne
      | cons x rest => exact ⟨x, rest, rfl⟩
    have hrest : rest = [] := by
      have := h2
      rw [harm] at this
      simpa using this
    subst hrest
    obtain ⟨htimer, t0, hlast, hdl⟩ := h5 td dl harm
    have hcleared : clearTimeoutJs s.armed s.ctx.timer = [] := by
      rw [harm, htimer]
      simp [clearTimeoutJs]
    cases err with
    | some e =>
      simp only at hstep
      obtain rfl := Option.some.inj hstep
      refine ⟨?_, ?_, ?_, ?_, ?_⟩ <;> simp_all
    | none =>
      simp only at hstep
      obtain rfl := Option.some.inj hstep
      refine ⟨?_, ?_, ?_, ?_, ?_⟩ <;> simp_all
  | watchdogFire =>
    cases ha : s.armed with
    | nil =>
      simp only [scStep, ha] at hstep
      exact Option.noConfusion hstep
    | cons x rest =>
      obtain ⟨td, dl⟩ := x
      simp only [scStep, ha] at hstep
      by_cases hdl : dl ≤ s.now
      · rw [if_pos hdl] at hstep
        obtain rfl := Option.some.inj hstep
        have hphase : s.phase = ScPhase.execOutstanding := h1.mpr (by simp [ha])
        refine ⟨?_, ?_, ?_, ?_, ?_⟩ <;> simp_all
      · rw [if_neg hdl] at hstep
        exact Option.noConfusion hstep
  | tick dt =>
    cases hp : s.phase <;> simp only [scStep, hp] at hstep <;>
      try exact Option.noConfusion hstep
    all_goals
      obtain rfl := Option.some.inj hstep
      refine ⟨?_, ?_, ?_, ?_, ?_⟩ <;> simp_all <;>
        try exact fun td dl h => (h5 td dl h).1

/-- Every reachable state satisfies the invariant. -/
theorem scReach_inv {s : ScState} (h : ScReach s) : ScInv s := by
  induction h with
  | init nm => exact scInv_init nm
  | step hr hstep ih => exact scInv_step ih hstep

/-- The steps at which an iteration of the command starts, i.e. at which
`scCommandLoop` begins to run: synchronously from setup's success callback
(source line 151), or as the `setImmediate`d continuation posted by the
previous iteration (source line 174). -/
def iterStartStep (s : ScState) (e : ScEvent) : Prop :=
  (s.phase = ScPhase.settingUp ∧ e = ScEvent.setupDone none) ∨
  (s.phase = ScPhase.loopQueued ∧ e = ScEvent.loopRun)

/-- Exhaustive description of the enabled steps of the per-command
machine. -/
theorem scStep_shape {s s' : ScState} {e : ScEvent}
    (hstep : scStep s e = some s') :
    (e = ScEvent.start ∧ s.phase = ScPhase.unstarted ∧
      s' = { s with phase := ScPhase.settingUp,
                    ctx := { nstarted := 0, lastStarted := none,
                             setupStarted := some s.now, setupDone := none,
                             timer := none } }) ∨
    (∃ e0, e = ScEvent.setupDone (some e0) ∧ s.phase = ScPhase.settingUp ∧
      s' = { s with phase := (ScPhase.setupFailed
               (verrorWrap e0 ("setup command \"" ++ s.name ++ "\""))) }) ∨
    (e = ScEvent.setupDone none ∧ s.phase = ScPhase.settingUp ∧
      s' = scCommandLoopEnter
        { s with ctx := { s.ctx with setupDone := some s.now } }) ∨
    (e = ScEvent.loopRun ∧ s.phase = ScPhase.loopQueued ∧
      s' = scCommandLoopEnter s) ∨
    (∃ e0, e = ScEvent.execReturn (some e0) ∧
      s.phase = ScPhase.execOutstanding ∧
      s' = { s with
        phase := (ScPhase.crashed
          (verrorWrap e0 ("exec command \"" ++ s.name ++ "\""))),
        armed := clearTimeoutJs s.armed s.ctx.timer,
        fatalLogged := (verrorWrap e0 ("exec command \"" ++ s.name ++ "\"")
            :: s.fatalLogged) }) ∨
    (e = ScEvent.execReturn none ∧ s.phase = ScPhase.execOutstanding ∧
      s' = { s with phase := ScPhase.loopQueued,
                    armed := clearTimeoutJs s.armed s.ctx.timer }) ∨
    (∃ td dl rest, e = ScEvent.watchdogFire ∧ s.armed = (td, dl) :: rest ∧
      dl ≤ s.now ∧
      s' = { s with phase := ScPhase.aborted (scWatchdogFire s.name),
                    armed := [] }) ∨
    (∃ dt, e = ScEvent.tick dt ∧ s' = { s with now := s.now + dt }) := by
  cases e with
  | start =>
    cases hp : s.phase <;> simp only [scStep, hp] at hstep <;>
      try exact Option.noConfusion hstep
    obtain rfl := Option.some.inj hstep
    exact Or.inl ⟨rfl, rfl, rfl⟩
  | setupDone err =>
    cases hp : s.phase <;> simp only [scStep, hp] at hstep <;>
      try exact Option.noConfusion hstep
    cases err with
    | some e0 =>
      simp only at hstep
      obtain rfl := Option.some.inj hstep
      exact Or.inr (Or.inl ⟨e0, rfl, rfl, rfl⟩)
    | none =>
      simp only at hstep
      obtain rfl := Option.some.inj hstep
      exact Or.inr (Or.inr (Or.inl ⟨rfl, rfl, rfl⟩))
  | loopRun =>
    cases hp : s.phase <;> simp only [scStep, hp] at hstep <;>
      try exact Option.noConfusion hstep
    obtain rfl := Option.some.inj hstep
    exact Or.inr (Or.inr (Or.inr (Or.inl ⟨rfl, rfl, rfl⟩)))
  | execReturn err =>
    cases hp : s.phase <;> simp only [scStep, hp] at hstep <;>
      try exact Option.noConfusion hstep
    cases err with
    | some e0 =>
      simp only at hstep
      obtain rfl := Option.some.inj hstep
      exact Or.inr (Or.inr (Or.inr (Or.inr (Or.inl ⟨e0, rfl, rfl, rfl⟩))))
    | none =>
      simp only at hstep
      obtain rfl := Option.some.inj hstep
      exact Or.inr (Or.inr (Or.inr (Or.inr (Or.inr (Or.inl ⟨rfl, rfl, rfl⟩)))))
  | watchdogFire =>
    cases ha : s.armed with
    | nil =>
      simp only [scStep, ha] at hstep
      exact Option.noConfusion hstep
    | cons x rest =>
      obtain ⟨td, dl⟩ := x
      simp only [scStep, ha] at hstep
      by_cases hdl : dl ≤ s.now
      · rw [if_pos hdl] at hstep
        obtain rfl := Option.some.inj hstep
        exact Or.inr (Or.inr (Or.inr (Or.inr (Or.inr (Or.inr (Or.inl
          ⟨td, dl, rest, rfl, rfl, hdl, rfl⟩))))))
      · rw [if_neg hdl] at hstep
        exact Option.noConfusion hstep
  | tick dt =>
    cases hp : s.phase <;> simp only [scStep, hp] at hstep <;>
      try exact Option.noConfusion hstep
    all_goals
      obtain rfl := Option.some.inj hstep
      exact Or.inr (Or.inr (Or.inr (Or.inr (Or.inr (Or.inr (Or.inr
        ⟨dt, rfl, rfl⟩))))))

/-- While an iteration is outstanding, the invariant pins the armed timeout:
the iteration has been counted, and clearing `ctx.timer` disarms
everything. -/
theorem scInv_exec_facts {s : ScState} (hinv : ScInv s)
    (hp : s.phase = ScPhase.execOutstanding) :
    1 ≤ s.ctx.nstarted ∧ clearTimeoutJs s.armed s.ctx.timer = [] := by
  obtain ⟨h1, h2, h3, h4, h5⟩ := hinv
  have hne := h1.mp hp
  obtain ⟨⟨td, dl⟩, rest, harm⟩ : ∃ x rest, s.armed = x :: rest := by
    cases hx : s.armed with
    | nil => exact absurd hx hne
    | cons x rest => exact ⟨x, rest, rfl⟩
  have hrest : rest = [] := by
    rw [harm] at h2
    simpa using h2
  subst hrest
  obtain ⟨htimer, _⟩ := h5 td dl harm
  constructor
  · exact h3.mp (by simp [htimer])
  · rw [harm, htimer]
    simp [clearTimeoutJs]

/-! ## A concrete execution of one command's machine

The states below are the successive states of the machine for a command
named `ex` along the run: start, setup success (first iteration starts),
first exec success (next loop run queued), queued loop run (second
iteration starts), and a failing exec callback.  They are used as concrete
instances for the claims' theorems. -/

/-- State after `scCommandStart` ran (setup outstanding). -/
def scExSetting : ScState :=
  { name := "ex", phase := ScPhase.settingUp,
    ctx := { nstarted := 0, lastStarted := none, setupStarted := some 0,
             setupDone := none, timer := none },
    armed := [], now := 0, nextTimerId := 0, fatalLogged := [] }

/-- State during the first iteration (exec outstanding, watchdog armed). -/
def scExRun1 : ScState :=
  { name := "ex", phase := ScPhase.execOutstanding,
    ctx := { nstarted := 1, lastStarted := some 0, setupStarted := some 0,
             setupDone := some 0, timer := some 0 },
    armed := [(0, 30000)], now := 0, nextTimerId := 1, fatalLogged := [] }

/-- State after the first iteration completed successfully: the next loop
run is queued, the watchdog is disarmed, but the `ctx.timer` field still
holds the old handle. -/
def scExQueued : ScState :=
  { name := "ex", phase := ScPhase.loopQueued,
    ctx := { nstarted := 1, lastStarted := some 0, setupStarted := some 0,
             setupDone := some 0, timer := some 0 },
    armed := [], now := 0, nextTimerId := 1, fatalLogged := [] }

/-- State during the second iteration. -/
def scExRun2 : ScState :=
  { name := "ex", phase := ScPhase.execOutstanding,
    ctx := { nstarted := 2, lastStarted := some 0, setupStarted := some 0,
             setupDone := some 0, timer := some 1 },
    armed := [(1, 30000)], now := 0, nextTimerId := 2, fatalLogged := [] }

/-- An error reported by an exec routine in the concrete run. -/
def scExErr : JsError := JsError.base "SomeError" "boom"

/-- State after the second iteration's exec callback reported `scExErr`:
the wrapped error is logged fatal and thrown. -/
def scExCrashed : ScState :=
  { name := "ex",
    phase := ScPhase.crashed
      (JsError.chained "VError" "exec command \"ex\": boom" scExErr),
    ctx := { nstarted := 2, lastStarted := some 0, setupStarted := some 0,
             setupDone := some 0, timer := some 1 },
    armed := [], now := 0, nextTimerId := 2,
    fatalLogged := [JsError.chained "VError" "exec command \"ex\": boom" scExErr] }

theorem scExSetting_step : scStep (scInit "ex") ScEvent.start = some scExSetting := by
  decide

theorem scExRun1_step : scStep scExSetting (ScEvent.setupDone none) = some scExRun1 := by
  decide

theorem scExQueued_step : scStep scExRun1 (ScEvent.execReturn none) = some scExQueued := by
  decide

theorem scExRun2_step : scStep scExQueued ScEvent.loopRun = some scExRun2 := by
  decide

theorem scExCrashed_step :
    scStep scExRun2 (ScEvent.execReturn (some scExErr)) = some scExCrashed := by
  decide

theorem scExSetting_reach : ScReach scExSetting :=
  ScReach.step (ScReach.init "ex") scExSetting_step

theorem scExRun1_reach : ScReach scExRun1 :=
  ScReach.step scExSetting_reach scExRun1_step

theorem scExQueued_reach : ScReach scExQueued :=
  ScReach.step scExRun1_reach scExQueued_step

theorem scExRun2_reach : ScReach scExRun2 :=
  ScReach.step scExQueued_reach scExRun2_step

theorem scExCrashed_reach : ScReach scExCrashed :=
  ScReach.step scExRun2_reach scExCrashed_step

/-! ## Claims about the scheduler (C1-C5) -/

/-- C1, counterexample.  The claim states that the `timer` field of a
command's context is non-null iff an iteration is currently outstanding,
being cleared on iteration completion.  It is false: the exec callback
calls `clearTimeout(cmdspec.ctx.timer)` (source line 166) but never
assigns `null` to the field, so after the first iteration completes (state
`scExQueued`, reachable, with no iteration outstanding and nothing armed)
`ctx.timer` still holds the old handle. -/
theorem scTimer_field_survives_completion :
    ScReach scExQueued ∧
    scExQueued.phase ≠ ScPhase.execOutstanding ∧
    scExQueued.armed = [] ∧
    scExQueued.ctx.timer ≠ none :=
  ⟨scExQueued_reach, by decide, by decide, by decide⟩

/-- C1, amended.  In every reachable state of a command's machine, the
*armed watchdog* exists iff an iteration is currently outstanding, while
the `ctx.timer` *field* is non-null iff at least one iteration has ever
started: the field is set when an iteration starts and is overwritten at
the next iteration start, but it is never cleared on completion. -/
theorem scTimer_vs_outstanding (s : ScState) (h : ScReach s) :
    (s.armed ≠ [] ↔ s.phase = ScPhase.execOutstanding) ∧
    (s.ctx.timer ≠ none ↔ 1 ≤ s.ctx.nstarted) := by
  obtain ⟨h1, _, h3, _, _⟩ := scReach_inv h
  exact ⟨h1.symm, h3⟩

/-- C1 witness: the amended invariant, evaluated at the reachable state in
which the first iteration is outstanding. -/
theorem scTimer_vs_outstanding_witness :
    (scExRun1.armed ≠ [] ↔ scExRun1.phase = ScPhase.execOutstanding) ∧
    (scExRun1.ctx.timer ≠ none ↔ 1 ≤ scExRun1.ctx.nstarted) :=
  scTimer_vs_outstanding scExRun1 scExRun1_reach

/-- C2.  Along every enabled step of a command's machine: the context is
created with `nstarted = 0` (the `start` step, source line 135);
`nstarted` never decreases; it increases by exactly 1 precisely at the
steps at which an iteration starts (source line 158), and is unchanged by
every other step; and the increment happens before `exec` is invoked, so
whenever an iteration is outstanding `nstarted` already counts it. -/
theorem scNstarted_counting (s : ScState) (h : ScReach s) (e : ScEvent)
    (s' : ScState) (hstep : scStep s e = some s') :
    (e = ScEvent.start → s'.ctx.nstarted = 0) ∧
    s.ctx.nstarted ≤ s'.ctx.nstarted ∧
    (s'.ctx.nstarted = s.ctx.nstarted + 1 ↔ iterStartStep s e) ∧
    (¬ iterStartStep s e → s'.ctx.nstarted = s.ctx.nstarted) ∧
    (s'.phase = ScPhase.execOutstanding → 1 ≤ s'.ctx.nstarted) := by
  have hinv' : ScInv s' := scInv_step (scReach_inv h) hstep
  obtain ⟨h1, h2, h3, h4, h5⟩ := scReach_inv h
  rcases scStep_shape hstep with
    ⟨he, hp, rfl⟩ | ⟨e0, he, hp, rfl⟩ | ⟨he, hp, rfl⟩ | ⟨he, hp, rfl⟩ |
    ⟨e0, he, hp, rfl⟩ | ⟨he, hp, rfl⟩ | ⟨td, dl, rest, he, harm, hdl, rfl⟩ |
    ⟨dt, he, rfl⟩ <;>
  subst he <;>
  refine ⟨?_, ?_, ?_, ?_,
    fun hp' => (scInv_exec_facts hinv' hp').1⟩ <;>
  simp_all [scCommandLoopEnter, iterStartStep]

/-- C2 witness: the queued loop run for the second iteration increments
`nstarted` from 1 to 2. -/
theorem scNstarted_counting_witness :
    scExRun2.ctx.nstarted = scExQueued.ctx.nstarted + 1 :=
  (scNstarted_counting scExQueued scExQueued_reach ScEvent.loopRun scExRun2
    scExRun2_step).2.2.1.mpr (Or.inr ⟨rfl, rfl⟩)

/-- C3.  The watchdog budget is the fixed global `scWatchdogLimit = 30000`
milliseconds; every step at which an iteration starts arms exactly one
fresh watchdog timeout, with deadline thirty seconds from the current
time, storing its handle in `ctx.timer`; and if an armed timeout fires the
machine ends in the `aborted` phase carrying the report of
`scWatchdogFire`, which names the hung command and terminates with a
core-dumping `process.abort()` rather than a graceful exit. -/
theorem scWatchdog_budget_and_fire (s : ScState) (h : ScReach s)
    (e : ScEvent) (s' : ScState) (hstep : scStep s e = some s')
    (nm : String) :
    scWatchdogLimit = 30000 ∧
    (iterStartStep s e →
      s'.armed = [(s.nextTimerId, s.now + 30000)] ∧
      s'.ctx.timer = some s.nextTimerId) ∧
    (e = ScEvent.watchdogFire →
      s'.phase = ScPhase.aborted (scWatchdogFire s.name)) ∧
    scWatchdogFire nm = { hungCommand := nm, action := TermAction.abortDump } := by
  have hinv := scReach_inv h
  refine ⟨rfl, ?_, ?_, rfl⟩
  · intro hit
    rcases scStep_shape hstep with
      ⟨he, hp, rfl⟩ | ⟨e0, he, hp, rfl⟩ | ⟨he, hp, rfl⟩ | ⟨he, hp, rfl⟩ |
      ⟨e0, he, hp, rfl⟩ | ⟨he, hp, rfl⟩ |
      ⟨td, dl, rest, he, harm, hdl, rfl⟩ | ⟨dt, he, rfl⟩ <;>
    subst he <;>
    simp_all [scCommandLoopEnter, iterStartStep, scWatchdogLimit, ScInv]
  · rintro rfl
    rcases scStep_shape hstep with
      ⟨he, hp, rfl⟩ | ⟨e0, he, hp, rfl⟩ | ⟨he, hp, rfl⟩ | ⟨he, hp, rfl⟩ |
      ⟨e0, he, hp, rfl⟩ | ⟨he, hp, rfl⟩ |
      ⟨td, dl, rest, he, harm, hdl, rfl⟩ | ⟨dt, he, rfl⟩ <;>
    first
      | exact ScEvent.noConfusion he
      | rfl

/-- C3 witness: the second iteration's start armed the fresh timeout with a
thirty-second deadline and stored its handle. -/
theorem scWatchdog_budget_and_fire_witness :
    scExRun2.armed = [(scExQueued.nextTimerId, scExQueued.now + 30000)] ∧
    scExRun2.ctx.timer = some scExQueued.nextTimerId :=
  (scWatchdog_budget_and_fire scExQueued scExQueued_reach ScEvent.loopRun
    scExRun2 scExRun2_step "w").2.1 (Or.inr ⟨rfl, rfl⟩)

/-- C4.  In every reachable state at most one watchdog timeout is armed;
every step at which an iteration starts happens with nothing armed (the
previous timeout was cleared first); `nstarted` can only be incremented
when no iteration is outstanding, so iteration N+1 never starts before
iteration N's exec callback has returned; and a successful exec callback
does not start the next iteration in-line: it only moves the machine to
the `loopQueued` phase (the `setImmediate` posting, source line 174),
leaving `nstarted` unchanged and nothing armed. -/
theorem scSerial_iterations (s : ScState) (h : ScReach s) (e : ScEvent)
    (s' : ScState) (hstep : scStep s e = some s') :
    s.armed.length ≤ 1 ∧
    (iterStartStep s e → s.armed = []) ∧
    (s'.ctx.nstarted = s.ctx.nstarted + 1 →
      s.phase ≠ ScPhase.execOutstanding) ∧
    (e = ScEvent.execReturn none →
      s'.phase = ScPhase.loopQueued ∧ s'.ctx.nstarted = s.ctx.nstarted ∧
      s'.armed = []) := by
  have hinv := scReach_inv h
  refine ⟨hinv.2.1, ?_, ?_, ?_⟩
  · intro hit
    by_contra hne
    have hq := hinv.1.mpr hne
    rcases hit with ⟨hp, _⟩ | ⟨hp, _⟩ <;> rw [hp] at hq <;>
      exact ScPhase.noConfusion hq
  · intro hinc
    rcases scStep_shape hstep with
      ⟨he, hp, rfl⟩ | ⟨e0, he, hp, rfl⟩ | ⟨he, hp, rfl⟩ | ⟨he, hp, rfl⟩ |
      ⟨e0, he, hp, rfl⟩ | ⟨he, hp, rfl⟩ |
      ⟨td, dl, rest, he, harm, hdl, rfl⟩ | ⟨dt, he, rfl⟩ <;>
    simp_all [scCommandLoopEnter]
  · rintro rfl
    rcases scStep_shape hstep with
      ⟨he, hp, rfl⟩ | ⟨e0, he, hp, rfl⟩ | ⟨he, hp, rfl⟩ | ⟨he, hp, rfl⟩ |
      ⟨e0, he, hp, rfl⟩ | ⟨he, hp, rfl⟩ |
      ⟨td, dl, rest, he, harm, hdl, rfl⟩ | ⟨dt, he, rfl⟩ <;>
    first
      | exact ScEvent.noConfusion he
      | exact absurd (ScEvent.execReturn.inj he) (by exact fun hx => Option.noConfusion hx)
      | exact ⟨rfl, rfl, (scInv_exec_facts hinv hp).2⟩

/-- C4 witness: the first iteration's successful exec callback queues the
next run without starting it: afterwards the machine is in `loopQueued`,
`nstarted` is unchanged, and nothing is armed. -/
theorem scSerial_iterations_witness :
    scExQueued.phase = ScPhase.loopQueued ∧
    scExQueued.ctx.nstarted = scExRun1.ctx.nstarted ∧
    scExQueued.armed = [] :=
  (scSerial_iterations scExRun1 scExRun1_reach (ScEvent.execReturn none)
    scExQueued scExQueued_step).2.2.2 rfl

/-- C5.  When an exec callback reports an error `e0`, the machine crashes:
the error is wrapped with the command's name
(`exec command "<name>": <message>`, keeping `e0` as its cause), the
wrapped error is logged at fatal level, the phase becomes `crashed`
(the re-throw), and no further step of any kind is enabled - in
particular the next iteration is never scheduled, and the error is
neither retried nor suppressed. -/
theorem scExecError_is_fatal (s : ScState) (h : ScReach s) (e0 : JsError)
    (s' : ScState)
    (hstep : scStep s (ScEvent.execReturn (some e0)) = some s') :
    s'.phase = ScPhase.crashed
      (verrorWrap e0 ("exec command \"" ++ s.name ++ "\"")) ∧
    (verrorWrap e0 ("exec command \"" ++ s.name ++ "\"")).cause = some e0 ∧
    (verrorWrap e0 ("exec command \"" ++ s.name ++ "\"")).message =
      "exec command \"" ++ s.name ++ "\"" ++ ": " ++ e0.message ∧
    s'.fatalLogged =
      verrorWrap e0 ("exec command \"" ++ s.name ++ "\"") :: s.fatalLogged ∧
    (∀ e2, scStep s' e2 = none) := by
  have hinv := scReach_inv h
  rcases scStep_shape hstep with
    ⟨he, hp, rfl⟩ | ⟨e1, he, hp, rfl⟩ | ⟨he, hp, rfl⟩ | ⟨he, hp, rfl⟩ |
    ⟨e1, he, hp, rfl⟩ | ⟨he, hp, rfl⟩ |
    ⟨td, dl, rest, he, harm, hdl, rfl⟩ | ⟨dt, he, rfl⟩ <;>
  try exact ScEvent.noConfusion he
  · obtain rfl : e1 = e0 := (Option.some.inj (ScEvent.execReturn.inj he)).symm
    have hcleared := (scInv_exec_facts hinv hp).2
    refine ⟨rfl, rfl, rfl, rfl, ?_⟩
    intro e2
    cases e2 <;> simp [scStep, hcleared]
  · exact absurd (ScEvent.execReturn.inj he)
      (by exact fun hx => Option.noConfusion hx)

/-- C5 witness: the concrete failing exec callback of the second iteration
ends in the crashed phase with the wrapped error logged fatal, and the
queued-loop event is no longer enabled. -/
theorem scExecError_is_fatal_witness :
    scExCrashed.fatalLogged =
      verrorWrap scExErr ("exec command \"" ++ scExRun2.name ++ "\"")
        :: scExRun2.fatalLogged ∧
    scStep scExCrashed ScEvent.loopRun = none :=
  ⟨(scExecError_is_fatal scExRun2 scExRun2_reach scExErr scExCrashed
      scExCrashed_step).2.2.2.1,
   (scExecError_is_fatal scExRun2 scExRun2_reach scExErr scExCrashed
      scExCrashed_step).2.2.2.2 ScEvent.loopRun⟩

/-! ## Scenario exec routines (C6-C8)

Each exec routine is embedded as a function of the outcome(s) the RPC
client collaborator delivers to its callback(s): one `Option JsError` per
callback-style call (`none` is a successful call), one stream event per
event-emitter call. -/

/-- A cause chain contains an error of the given name. -/
def chainHasName (e : JsError) (nm : String) : Prop :=
  ∃ c ∈ e.causeChain, c.name = nm

instance (e : JsError) (nm : String) : Decidable (chainHasName e nm) := by
  unfold chainHasName
  infer_instance

/-- How one invocation of an exec routine ends: the loop callback is
invoked with `err` (`completed`), or a synchronous exception (an assertion
failure or an explicit `throw`) escapes, crashing the process
(`thrown`). -/
inductive ScIterOutcome where
  | completed (err : Option JsError)
  | thrown (msg : String)
deriving DecidableEq, Repr

/-- The exec routine of the never-connected scenario,
`cmdRpcNeverConnected` (source lines 242-250): issue a single
`listBuckets` call (its outcome is the argument `res`), replace the error
by `null` when its cause chain has a `NoBackendsError`, and complete with
the result.  Note there is no success check: the callback passes the raw
outcome straight to `VError.findCauseByName`, which throws on a
non-`Error` argument. -/
def cmdRpcNeverConnected (res : Option JsError) : ScIterOutcome :=
  match findCauseByNameJs res "NoBackendsError" with
  | Except.error m => ScIterOutcome.thrown m
  | Except.ok found =>
      ScIterOutcome.completed (if found.isSome then none else res)

/-- C6.  The never-connected iteration (whose single `listBuckets` outcome
is `res`) completes normally iff the call failed with an error whose cause
chain contains a `NoBackendsError`; a successful call does not pass as a
successful RPC, since the callback throws on it (the verror assertion on a
null error); and any other error is passed through to the loop callback,
where it is fatal by the loop's error policy. -/
theorem cmdRpcNeverConnected_spec (res : Option JsError) :
    (cmdRpcNeverConnected res = ScIterOutcome.completed none ↔
      ∃ e, res = some e ∧ chainHasName e "NoBackendsError") ∧
    (res = none →
      cmdRpcNeverConnected res = ScIterOutcome.thrown "err must be an Error") ∧
    (∀ e, res = some e → ¬ chainHasName e "NoBackendsError" →
      cmdRpcNeverConnected res = ScIterOutcome.completed (some e)) := by
  refine ⟨?_, ?_, ?_⟩
  · cases res with
    | none => simp [cmdRpcNeverConnected, findCauseByNameJs]
    | some e =>
      simp only [cmdRpcNeverConnected, findCauseByNameJs]
      by_cases hf : (findCauseByName e "NoBackendsError").isSome = true
      · rw [if_pos hf]
        rw [findCauseByName_isSome_iff] at hf
        simpa [chainHasName] using hf
      · rw [if_neg hf]
        rw [findCauseByName_isSome_iff] at hf
        simpa [chainHasName] using hf
  · rintro rfl
    rfl
  · rintro e rfl hnot
    simp only [cmdRpcNeverConnected, findCauseByNameJs]
    rw [if_neg]
    rw [findCauseByName_isSome_iff]
    exact hnot

/-- An error whose cause chain ends in a `NoBackendsError`, as the moray
client produces when it has no reachable backend. -/
def scNoBackendsErr : JsError :=
  JsError.chained "VError" "request failed"
    (JsError.base "NoBackendsError" "no backends available")

/-- C6 witness: a failed call whose cause chain carries `NoBackendsError`
completes the iteration normally. -/
theorem cmdRpcNeverConnected_spec_witness :
    cmdRpcNeverConnected (some scNoBackendsErr) = ScIterOutcome.completed none :=
  (cmdRpcNeverConnected_spec (some scNoBackendsErr)).1.mpr
    ⟨scNoBackendsErr, rfl, by decide⟩

/-- The whitelist of the reconnect-cycle scenario's final check (source
lines 376-381). -/
def scReconnectWhitelist : List String :=
  ["NoBackendsError", "FastTransportError", "FastProtocolError"]

/-- The final step of the reconnect-cycle scenario,
`cmdRpcReconnectClientFail` (source lines 372-392), as a function of the
outcome of the final `ping` issued after server teardown: a failure whose
cause chain carries one of the three whitelisted error kinds is swallowed;
any other failure is wrapped as `unexpected error`; a success becomes an
`unexpected success` error.  The returned error is what the step hands to
the pipeline, failing the iteration when non-null. -/
def cmdRpcReconnectClientFail (res : Option JsError) : Option JsError :=
  match res with
  | some e =>
      if (findCauseByName e "NoBackendsError").isSome ||
         (findCauseByName e "FastTransportError").isSome ||
         (findCauseByName e "FastProtocolError").isSome then
        none
      else
        some (verrorWrap e "unexpected error")
  | none => some (verrorNew "unexpected success")

/-- C7.  The final ping after teardown passes iff it failed with an error
whose cause chain carries one of exactly the three whitelisted kinds
(`NoBackendsError`, `FastTransportError`, `FastProtocolError`); a
successful ping is converted into an `unexpected success` error, and a
failure of any other kind is wrapped as `unexpected error` keeping the
original as cause - both non-null results fail the iteration fatally via
the pipeline and the loop's error policy. -/
theorem cmdRpcReconnectClientFail_spec (res : Option JsError) :
    (cmdRpcReconnectClientFail res = none ↔
      ∃ e, res = some e ∧
        ∃ t ∈ ["NoBackendsError", "FastTransportError", "FastProtocolError"],
          chainHasName e t) ∧
    (cmdRpcReconnectClientFail none = some (verrorNew "unexpected success")) ∧
    (∀ e, res = some e →
      ¬ (∃ t ∈ ["NoBackendsError", "FastTransportError", "FastProtocolError"],
          chainHasName e t) →
      cmdRpcReconnectClientFail res = some (verrorWrap e "unexpected error") ∧
      (verrorWrap e "unexpected error").cause = some e) := by
  have hiff : ∀ e : JsError,
      ((findCauseByName e "NoBackendsError").isSome ||
       (findCauseByName e "FastTransportError").isSome ||
       (findCauseByName e "FastProtocolError").isSome) = true ↔
      ∃ t ∈ ["NoBackendsError", "FastTransportError", "FastProtocolError"],
        chainHasName e t := by
    intro e
    simp only [Bool.or_eq_true, findCauseByName_isSome_iff]
    constructor
    · rintro ((h | h) | h)
      · exact ⟨"NoBackendsError", by simp, h⟩
      · exact ⟨"FastTransportError", by simp, h⟩
      · exact ⟨"FastProtocolError", by simp, h⟩
    · rintro ⟨t, ht, hc⟩
      simp only [List.mem_cons, List.not_mem_nil, or_false] at ht
      rcases ht with rfl | rfl | rfl
      · exact Or.inl (Or.inl hc)
      · exact Or.inl (Or.inr hc)
      · exact Or.inr hc
  refine ⟨?_, rfl, ?_⟩
  · cases res with
    | none => simp [cmdRpcReconnectClientFail]
    | some e =>
      simp only [cmdRpcReconnectClientFail]
      by_cases hb :
          ((findCauseByName e "NoBackendsError").isSome ||
           (findCauseByName e "FastTransportError").isSome ||
           (findCauseByName e "FastProtocolError").isSome) = true
      · rw [if_pos hb]
        rw [hiff e] at hb
        simpa using hb
      · rw [if_neg hb]
        rw [hiff e] at hb
        simpa using hb
  · rintro e rfl hnot
    refine ⟨?_, rfl⟩
    simp only [cmdRpcReconnectClientFail]
    rw [if_neg]
    rw [hiff e]
    exact hnot

/-- An error whose cause chain ends in a `FastTransportError`, as the moray
client produces when the transport goes away under it. -/
def scTransportErr : JsError :=
  JsError.chained "VError" "ping failed"
    (JsError.base "FastTransportError" "transport closed")

/-- C7 witness: after teardown, a ping failure carrying
`FastTransportError` is swallowed, while a successful ping yields the
`unexpected success` error. -/
theorem cmdRpcReconnectClientFail_spec_witness :
    cmdRpcReconnectClientFail (some scTransportErr) = none ∧
    cmdRpcReconnectClientFail none = some (verrorNew "unexpected success") :=
  ⟨(cmdRpcReconnectClientFail_spec (some scTransportErr)).1.mpr
      ⟨scTransportErr, rfl, "FastTransportError", by simp, by decide⟩,
   (cmdRpcReconnectClientFail_spec none).2.1⟩

/-- An event delivered by an event-emitter request (`findObjects`, `sql`):
an `error` event carrying an error, or the `end` event. -/
inductive StreamEvent where
  | errorEv (e : JsError)
  | endEv
deriving DecidableEq, Repr

/-- How one step of a vasync pipeline ends: it calls its subcallback with
no error (`pass`), calls it with an error (`failStep`, aborting the
pipeline with that error, which then fails the iteration), or throws
synchronously (`thrown`, crashing the process). -/
inductive ScStepOutcome where
  | pass
  | failStep (e : JsError)
  | thrown (msg : String)
deriving DecidableEq, Repr

/-- A pipeline step that invokes one callback-style RPC with
`cbIgnoreErrorTypes(subcallback, errtypes)` as its callback: the
subcallback receives the outcome filtered through `ignoreErrorTypes`. -/
def cbFilteredStep (errtypes : List String) (res : Option JsError) :
    ScStepOutcome :=
  match ignoreErrorTypes res errtypes with
  | none => ScStepOutcome.pass
  | some e => ScStepOutcome.failStep e

/-- Step `cmdRpcFailCreateBucket` (source lines 423-427): `createBucket`
with the invalid (space-containing) bucket name, expecting
`InvalidBucketNameError`. -/
def cmdRpcFailCreateBucket (res : Option JsError) : ScStepOutcome :=
  cbFilteredStep ["InvalidBucketNameError"] res

/-- Step `cmdRpcFailGetBucket` (source lines 429-433): `getBucket` on the
bogus bucket, expecting `BucketNotFoundError`. -/
def cmdRpcFailGetBucket (res : Option JsError) : ScStepOutcome :=
  cbFilteredStep ["BucketNotFoundError"] res

/-- Step `cmdRpcFailUpdateBucket` (source lines 435-439). -/
def cmdRpcFailUpdateBucket (res : Option JsError) : ScStepOutcome :=
  cbFilteredStep ["BucketNotFoundError"] res

/-- Step `cmdRpcFailDeleteBucket` (source lines 441-445). -/
def cmdRpcFailDeleteBucket (res : Option JsError) : ScStepOutcome :=
  cbFilteredStep ["BucketNotFoundError"] res

/-- Step `cmdRpcFailPutObject` (source lines 447-451). -/
def cmdRpcFailPutObject (res : Option JsError) : ScStepOutcome :=
  cbFilteredStep ["BucketNotFoundError"] res

/-- Step `cmdRpcFailBatch` (source lines 453-461). -/
def cmdRpcFailBatch (res : Option JsError) : ScStepOutcome :=
  cbFilteredStep ["BucketNotFoundError"] res

/-- Step `cmdRpcFailGetObject` (source lines 463-467). -/
def cmdRpcFailGetObject (res : Option JsError) : ScStepOutcome :=
  cbFilteredStep ["BucketNotFoundError"] res

/-- Step `cmdRpcFailDelObject` (source lines 469-473). -/
def cmdRpcFailDelObject (res : Option JsError) : ScStepOutcome :=
  cbFilteredStep ["BucketNotFoundError"] res

/-- Step `cmdRpcFailFindObjects` (source lines 475-485): an event-emitter
request; an `error` event is filtered through `ignoreErrorTypes` with
`BucketNotFoundError` whitelisted, while an `end` event (an unexpected
success) throws. -/
def cmdRpcFailFindObjects : StreamEvent → ScStepOutcome
  | StreamEvent.errorEv e =>
      match ignoreErrorTypes (some e) ["BucketNotFoundError"] with
      | none => ScStepOutcome.pass
      | some e2 => ScStepOutcome.failStep e2
  | StreamEvent.endEv => ScStepOutcome.thrown "unexpected \"end\""

/-- Step `cmdRpcFailUpdateObjects` (source lines 487-491): expecting
`FieldUpdateError`. -/
def cmdRpcFailUpdateObjects (res : Option JsError) : ScStepOutcome :=
  cbFilteredStep ["FieldUpdateError"] res

/-- Step `cmdRpcFailReindexObjects` (source lines 493-497). -/
def cmdRpcFailReindexObjects (res : Option JsError) : ScStepOutcome :=
  cbFilteredStep ["BucketNotFoundError"] res

/-- Step `cmdRpcFailDeleteMany` (source lines 499-503). -/
def cmdRpcFailDeleteMany (res : Option JsError) : ScStepOutcome :=
  cbFilteredStep ["BucketNotFoundError"] res

/-- The anchored regular-expression test `/pat$/.test(msg)`: the message
ends with the pattern. -/
def regexTestAtEnd (pat msg : String) : Bool :=
  List.isSuffixOf pat.data msg.data

/-- Step `cmdRpcFailGetTokens` (source lines 505-512): asserts that the
call failed (a success throws) and that the message ends in
`Operation not supported`. -/
def cmdRpcFailGetTokens (res : Option JsError) : ScStepOutcome :=
  match res with
  | none => ScStepOutcome.thrown "assertion failed: err"
  | some e =>
      if regexTestAtEnd "Operation not supported" e.message then
        ScStepOutcome.pass
      else ScStepOutcome.thrown "assertion failed: message"

/-- Step `cmdRpcFailSql` (source lines 514-525): an event-emitter request;
an `error` event must carry a message ending in
`relation "bogus" does not exist` (anything else fails the assertion), and
an `end` event throws. -/
def cmdRpcFailSql : StreamEvent → ScStepOutcome
  | StreamEvent.errorEv e =>
      if regexTestAtEnd "relation \"bogus\" does not exist" e.message then
        ScStepOutcome.pass
      else ScStepOutcome.thrown "assertion failed: message"
  | StreamEvent.endEv => ScStepOutcome.thrown "unexpected \"end\""

/-- Sequential composition of pipeline step outcomes, as
`vasync.pipeline` runs them: stop at the first step that does not pass. -/
def pipelineSeq : List ScStepOutcome → ScStepOutcome
  | [] => ScStepOutcome.pass
  | ScStepOutcome.pass :: rest => pipelineSeq rest
  | o :: _ => o

/-- The outcomes the environment delivers to the fourteen calls issued by
one `cmdRpcFail` iteration, in pipeline order. -/
structure RpcFailOutcomes where
  createBucket : Option JsError
  getBucket : Option JsError
  updateBucket : Option JsError
  deleteBucket : Option JsError
  putObject : Option JsError
  batch : Option JsError
  getObject : Option JsError
  delObject : Option JsError
  findObjects : StreamEvent
  updateObjects : Option JsError
  reindexObjects : Option JsError
  deleteMany : Option JsError
  getTokens : Option JsError
  sql : StreamEvent
deriving DecidableEq, Repr

/-- The exec routine of the failure-sweep scenario, `cmdRpcFail` (source
lines 407-528): the fourteen steps run sequentially in source order, and
the iteration's outcome is that of the first step that does not pass. -/
def cmdRpcFail (o : RpcFailOutcomes) : ScStepOutcome :=
  pipelineSeq
    [ cmdRpcFailCreateBucket o.createBucket,
      cmdRpcFailGetBucket o.getBucket,
      cmdRpcFailUpdateBucket o.updateBucket,
      cmdRpcFailDeleteBucket o.deleteBucket,
      cmdRpcFailPutObject o.putObject,
      cmdRpcFailBatch o.batch,
      cmdRpcFailGetObject o.getObject,
      cmdRpcFailDelObject o.delObject,
      cmdRpcFailFindObjects o.findObjects,
      cmdRpcFailUpdateObjects o.updateObjects,
      cmdRpcFailReindexObjects o.reindexObjects,
      cmdRpcFailDeleteMany o.deleteMany,
      cmdRpcFailGetTokens o.getTokens,
      cmdRpcFailSql o.sql ]

theorem cbFilteredStep_spec (ts : List String) (res : Option JsError) :
    (cbFilteredStep ts res = ScStepOutcome.pass ↔
      res = none ∨ ∃ e, res = some e ∧ ∃ t ∈ ts, chainHasName e t) ∧
    (∀ e, res = some e → ¬ (∃ t ∈ ts, chainHasName e t) →
      cbFilteredStep ts res = ScStepOutcome.failStep e) := by
  have hchain : ∀ e : JsError,
      ignoreErrorTypesLoop e ts = none ↔ ∃ t ∈ ts, chainHasName e t := by
    intro e
    rw [ignoreErrorTypesLoop_eq_none_iff]
    simp [chainHasName]
  constructor
  · cases res with
    | none => simp [cbFilteredStep, ignoreErrorTypes]
    | some e =>
      rcases ignoreErrorTypesLoop_eq_self_or_none e ts with hl | hl
      · have hno : ¬ ∃ t ∈ ts, chainHasName e t := by
          rw [← hchain e, hl]
          simp
        simp [cbFilteredStep, ignoreErrorTypes, hl, hno]
      · have hyes := (hchain e).mp hl
        simp only [cbFilteredStep, ignoreErrorTypes, hl]
        simpa using hyes
  · rintro e rfl hnot
    rw [← hchain e] at hnot
    rcases ignoreErrorTypesLoop_eq_self_or_none e ts with hl | hl
    · simp [cbFilteredStep, ignoreErrorTypes, hl]
    · exact absurd hl hnot

theorem cbFilteredStep_single (t : String) (res : Option JsError) :
    (cbFilteredStep [t] res = ScStepOutcome.pass ↔
      res = none ∨ ∃ e, res = some e ∧ chainHasName e t) ∧
    (∀ e, res = some e → ¬ chainHasName e t →
      cbFilteredStep [t] res = ScStepOutcome.failStep e) := by
  have h := cbFilteredStep_spec [t] res
  simpa using h

/-- An error whose cause chain ends in a `BucketNotFoundError`. -/
def scBucketNotFoundErr : JsError :=
  JsError.chained "VError" "request failed"
    (JsError.base "BucketNotFoundError" "bucket not found")

/-- An error whose cause chain ends in an `InvalidBucketNameError`. -/
def scInvalidNameErr : JsError :=
  JsError.chained "VError" "request failed"
    (JsError.base "InvalidBucketNameError" "invalid bucket name")

/-- An error whose cause chain ends in a `FieldUpdateError`. -/
def scFieldUpdateErr : JsError :=
  JsError.chained "VError" "request failed"
    (JsError.base "FieldUpdateError" "no indexed fields")

/-- The server's response to `getTokens` against a plain moray. -/
def scNotSupportedErr : JsError :=
  JsError.base "FastServerError" "moray: Operation not supported"

/-- The server's response to the bogus `sql` query. -/
def scSqlErr : JsError :=
  JsError.base "FastServerError" "relation \"bogus\" does not exist"

/-- Call outcomes for one `cmdRpcFail` iteration in which every step gets
its expected error except `getBucket`, which unexpectedly succeeds. -/
def scC8Outcomes : RpcFailOutcomes :=
  { createBucket := some scInvalidNameErr,
    getBucket := none,
    updateBucket := some scBucketNotFoundErr,
    deleteBucket := some scBucketNotFoundErr,
    putObject := some scBucketNotFoundErr,
    batch := some scBucketNotFoundErr,
    getObject := some scBucketNotFoundErr,
    delObject := some scBucketNotFoundErr,
    findObjects := StreamEvent.errorEv scBucketNotFoundErr,
    updateObjects := some scFieldUpdateErr,
    reindexObjects := some scBucketNotFoundErr,
    deleteMany := some scBucketNotFoundErr,
    getTokens := some scNotSupportedErr,
    sql := StreamEvent.errorEv scSqlErr }

set_option maxRecDepth 4000 in
/-- C8, counterexample.  The claim states that an unexpected success of any
swept operation fails the iteration fatally.  It is false for the
callback-based steps: their callbacks are `cbIgnoreErrorTypes(subcallback,
[...])`, and `ignoreErrorTypes(null, [...])` returns `null`, so a
successful call passes the step.  Concretely, with every other call
returning its expected error and `getBucket` succeeding, the whole
iteration completes normally. -/
theorem cmdRpcFail_success_not_fatal :
    scC8Outcomes.getBucket = none ∧
    cmdRpcFailGetBucket scC8Outcomes.getBucket = ScStepOutcome.pass ∧
    cmdRpcFail scC8Outcomes = ScStepOutcome.pass :=
  ⟨rfl, by decide, by decide⟩

/-- C8, amended.  Each step of the failure sweep requires its per-operation
error kind - `InvalidBucketNameError` for `createBucket` on the malformed
name, `BucketNotFoundError` for `getBucket`, `updateBucket`,
`deleteBucket`, `putObject`, `batch`, `getObject`, `delObject`,
`findObjects`, `reindexObjects` and `deleteMany` on the nonexistent
bucket, `FieldUpdateError` for `updateObjects` - and exactly that kind is
swallowed; an error of any other kind fails the iteration fatally (the
unfiltered error aborts the pipeline); but an unexpected *success* of a
callback-based step is passed through as if the step succeeded rather
than failing the run (only the event-emitter `findObjects` step treats
success, its `end` event, as a crash).  The steps run sequentially in
source order, the iteration completing only if all pass. -/
theorem cmdRpcFail_step_policy (res : Option JsError) (e : JsError) :
    (cmdRpcFailCreateBucket res = ScStepOutcome.pass ↔
      res = none ∨ ∃ e0, res = some e0 ∧ chainHasName e0 "InvalidBucketNameError") ∧
    (cmdRpcFailGetBucket res = ScStepOutcome.pass ↔
      res = none ∨ ∃ e0, res = some e0 ∧ chainHasName e0 "BucketNotFoundError") ∧
    (cmdRpcFailUpdateBucket res = ScStepOutcome.pass ↔
      res = none ∨ ∃ e0, res = some e0 ∧ chainHasName e0 "BucketNotFoundError") ∧
    (cmdRpcFailDeleteBucket res = ScStepOutcome.pass ↔
      res = none ∨ ∃ e0, res = some e0 ∧ chainHasName e0 "BucketNotFoundError") ∧
    (cmdRpcFailPutObject res = ScStepOutcome.pass ↔
      res = none ∨ ∃ e0, res = some e0 ∧ chainHasName e0 "BucketNotFoundError") ∧
    (cmdRpcFailBatch res = ScStepOutcome.pass ↔
      res = none ∨ ∃ e0, res = some e0 ∧ chainHasName e0 "BucketNotFoundError") ∧
    (cmdRpcFailGetObject res = ScStepOutcome.pass ↔
      res = none ∨ ∃ e0, res = some e0 ∧ chainHasName e0 "BucketNotFoundError") ∧
    (cmdRpcFailDelObject res = ScStepOutcome.pass ↔
      res = none ∨ ∃ e0, res = some e0 ∧ chainHasName e0 "BucketNotFoundError") ∧
    (cmdRpcFailReindexObjects res = ScStepOutcome.pass ↔
      res = none ∨ ∃ e0, res = some e0 ∧ chainHasName e0 "BucketNotFoundError") ∧
    (cmdRpcFailDeleteMany res = ScStepOutcome.pass ↔
      res = none ∨ ∃ e0, res = some e0 ∧ chainHasName e0 "BucketNotFoundError") ∧
    (cmdRpcFailUpdateObjects res = ScStepOutcome.pass ↔
      res = none ∨ ∃ e0, res = some e0 ∧ chainHasName e0 "FieldUpdateError") ∧
    (cmdRpcFailFindObjects (StreamEvent.errorEv e) = ScStepOutcome.pass ↔
      chainHasName e "BucketNotFoundError") ∧
    (cmdRpcFailFindObjects StreamEvent.endEv =
      ScStepOutcome.thrown "unexpected \"end\"") ∧
    (∀ e0, res = some e0 → ¬ chainHasName e0 "BucketNotFoundError" →
      cmdRpcFailGetBucket res = ScStepOutcome.failStep e0) := by
  refine ⟨(cbFilteredStep_single "InvalidBucketNameError" res).1,
    (cbFilteredStep_single "BucketNotFoundError" res).1,
    (cbFilteredStep_single "BucketNotFoundError" res).1,
    (cbFilteredStep_single "BucketNotFoundError" res).1,
    (cbFilteredStep_single "BucketNotFoundError" res).1,
    (cbFilteredStep_single "BucketNotFoundError" res).1,
    (cbFilteredStep_single "BucketNotFoundError" res).1,
    (cbFilteredStep_single "BucketNotFoundError" res).1,
    (cbFilteredStep_single "BucketNotFoundError" res).1,
    (cbFilteredStep_single "BucketNotFoundError" res).1,
    (cbFilteredStep_single "FieldUpdateError" res).1,
    ?_, rfl,
    (cbFilteredStep_single "BucketNotFoundError" res).2⟩
  have h := (cbFilteredStep_single "BucketNotFoundError" (some e)).1
  have heq : cmdRpcFailFindObjects (StreamEvent.errorEv e) =
      cbFilteredStep ["BucketNotFoundError"] (some e) := rfl
  rw [heq, h]
  simp

/-- C8 witness for the amended claim: the expected `BucketNotFoundError`
passes the `getBucket` step, and an error of a different kind fails it
with the error passed through unfiltered. -/
theorem cmdRpcFail_step_policy_witness :
    cmdRpcFailGetBucket (some scBucketNotFoundErr) = ScStepOutcome.pass ∧
    cmdRpcFailGetBucket (some scTransportErr) =
      ScStepOutcome.failStep scTransportErr :=
  ⟨(cmdRpcFail_step_policy (some scBucketNotFoundErr) scBucketNotFoundErr).2.1.mpr
      (Or.inr ⟨scBucketNotFoundErr, rfl, by decide⟩),
   (cmdRpcFail_step_policy (some scTransportErr)
      scTransportErr).2.2.2.2.2.2.2.2.2.2.2.2.2
      scTransportErr rfl (by decide)⟩

/-! ## The kang introspection handlers (C9) -/

/-- A registry entry as the kang handlers see it: the command's `name`, the
name of its `exec` function (`cmdspec.exec.name`), and its context. -/
structure CommandSpec where
  name : String
  execName : String
  ctx : ScCtx
deriving DecidableEq, Repr

/-- JavaScript `array.map(function (x, i) ...)`: map with the running
element index. -/
def jsMapWithIndex {α β : Type} (f : α → Nat → β) : List α → Nat → List β
  | [], _ => []
  | x :: rest, i => f x i :: jsMapWithIndex f rest (i + 1)

/-- The kang `list_types` handler `knListTypes` (source lines 105-108):
the single fixed entity type, whose identifier is the string `cmd`
(the type the spec names "command"). -/
def knListTypes : List String := ["cmd"]

/-- The kang `list_objects` handler `knListObjects` (source lines
110-116): assert the type is `cmd`, then return the indices of the
registered commands (`scCommands.map(function (_, i) { return (i); })`). -/
def knListObjects (scCommands : List CommandSpec) (ty : String) :
    Except String (List Nat) :=
  if ty = "cmd" then
    Except.ok (jsMapWithIndex (fun _ i => i) scCommands 0)
  else Except.error "assertion failed: type"

/-- The snapshot returned by the kang `get` handler, with the source's
field names (the spec calls them `label`, `functionName`,
`iterationsStarted`, `lastStartedTimestamp`). -/
structure KnSnapshot where
  label : String
  funcname : String
  nstarted : Nat
  lastStarted : Option Nat
deriving DecidableEq, Repr

/-- The kang `get` handler `knGetObject` (source lines 118-130): assert
the type is `cmd`, look up the command at the given index, and read the
four snapshot fields out of the spec and its context (an out-of-range
index makes `cmdspec.name` throw).  The handler only reads published
state: it is a pure function of the registry. -/
def knGetObject (scCommands : List CommandSpec) (ty : String)
    (which : Nat) : Except String KnSnapshot :=
  if ty = "cmd" then
    match scCommands[which]? with
    | some cmdspec =>
        Except.ok
          { label := cmdspec.name,
            funcname := cmdspec.execName,
            nstarted := cmdspec.ctx.nstarted,
            lastStarted := cmdspec.ctx.lastStarted }
    | none => Except.error "TypeError: cmdspec is undefined"
  else Except.error "assertion failed: type"

theorem jsMapWithIndex_index (l : List CommandSpec) (n : Nat) :
    jsMapWithIndex (fun _ i => i) l n = List.range' n l.length := by
  induction l generalizing n with
  | nil => simp [jsMapWithIndex]
  | cons x rest ih =>
    simp [jsMapWithIndex, List.range', ih]

/-- C9.  The introspection surface: the type list is the one-element list
holding the single fixed type; the identifier list for that type is
exactly the indices `0, ..., n-1` of the registered commands; and the
snapshot for a valid identifier is exactly the four fields read from the
command's name, its exec routine's name, its context's `nstarted`
counter, and its context's `lastStarted` timestamp.  All three handlers
are pure functions of the registry: they mutate nothing. -/
theorem knIntrospection_spec (cmds : List CommandSpec) (ty : String)
    (which : Nat) (cmdspec : CommandSpec) (hty : ty = "cmd")
    (hwhich : cmds[which]? = some cmdspec) :
    knListTypes = ["cmd"] ∧
    knListTypes.length = 1 ∧
    knListObjects cmds ty = Except.ok (List.range cmds.length) ∧
    knGetObject cmds ty which = Except.ok
      { label := cmdspec.name,
        funcname := cmdspec.execName,
        nstarted := cmdspec.ctx.nstarted,
        lastStarted := cmdspec.ctx.lastStarted } := by
  subst hty
  refine ⟨rfl, rfl, ?_, ?_⟩
  · simp [knListObjects, jsMapWithIndex_index, List.range_eq_range']
  · simp [knGetObject, hwhich]

/-- A sample registry of two commands mid-run, for evaluating the kang
handlers. -/
def scSampleRegistry : List CommandSpec :=
  [ { name := "make RPC requests before ever connected",
      execName := "cmdRpcNeverConnected", ctx := scExQueued.ctx },
    { name := "failed RPC requests",
      execName := "cmdRpcFail", ctx := scExRun1.ctx } ]

/-- C9 witness: the handlers evaluated on the sample registry. -/
theorem knIntrospection_spec_witness :
    knListTypes = ["cmd"] ∧
    knListObjects scSampleRegistry "cmd" = Except.ok [0, 1] ∧
    knGetObject scSampleRegistry "cmd" 0 = Except.ok
      { label := "make RPC requests before ever connected",
        funcname := "cmdRpcNeverConnected",
        nstarted := 1, lastStarted := some 0 } := by
  have h := knIntrospection_spec scSampleRegistry "cmd" 0
    { name := "make RPC requests before ever connected",
      execName := "cmdRpcNeverConnected", ctx := scExQueued.ctx }
    rfl (by decide)
  refine ⟨h.1, ?_, ?_⟩
  · rw [h.2.2.1]
    rfl
  · rw [h.2.2.2]
    rfl

/-! ## C10: the error-filtering helpers -/

/-- C10.  `ignoreErrorTypes(err, errtypes)` returns `null` exactly when
`err` is `null`/`undefined` or the cause chain of `err` contains an error
whose name is one of `errtypes`, and returns `err` itself otherwise; and
`cbIgnoreErrorTypes(callback, errtypes)` invokes the wrapped callback with
the filtered error and the remaining arguments unchanged, in order. -/
theorem ignoreErrorTypes_spec {α β : Type} (err : Option JsError)
    (ts : List String) (callback : Option JsError → List α → β)
    (args : List α) :
    (ignoreErrorTypes err ts = none ↔
      err = none ∨ ∃ e, err = some e ∧ ∃ t ∈ ts, chainHasName e t) ∧
    (ignoreErrorTypes err ts = none ∨ ignoreErrorTypes err ts = err) ∧
    cbIgnoreErrorTypes callback ts err args =
      callback (ignoreErrorTypes err ts) args := by
  refine ⟨?_, ?_, rfl⟩
  · cases err with
    | none => simp [ignoreErrorTypes]
    | some e =>
      simp only [ignoreErrorTypes]
      rw [ignoreErrorTypesLoop_eq_none_iff]
      simp [chainHasName]
  · cases err with
    | none => exact Or.inl rfl
    | some e =>
      simpa [ignoreErrorTypes] using
        (ignoreErrorTypesLoop_eq_self_or_none e ts).symm

/-- C10 witness: a wrapped error carrying `NoBackendsError` is filtered to
`null` while the other callback arguments pass through unchanged, and an
unrelated error passes through as itself. -/
theorem ignoreErrorTypes_spec_witness :
    ignoreErrorTypes (some scNoBackendsErr) ["NoBackendsError"] = none ∧
    cbIgnoreErrorTypes (fun e2 args2 => (e2, args2)) ["NoBackendsError"]
      (some scNoBackendsErr) [1, 2] =
      ((none : Option JsError), [1, 2]) ∧
    ignoreErrorTypes (some scExErr) ["NoBackendsError"] = some scExErr := by
  have h1 := ignoreErrorTypes_spec (some scNoBackendsErr) ["NoBackendsError"]
    (fun (e2 : Option JsError) (args2 : List Nat) => (e2, args2)) [1, 2]
  have hnone : ignoreErrorTypes (some scNoBackendsErr) ["NoBackendsError"] = none :=
    h1.1.mpr (Or.inr ⟨scNoBackendsErr, rfl, "NoBackendsError", by simp, by decide⟩)
  refine ⟨hnone, ?_, ?_⟩
  · rw [h1.2.2, hnone]
  · have h2 := ignoreErrorTypes_spec (some scExErr) ["NoBackendsError"]
      (fun (e2 : Option JsError) (args2 : List Nat) => (e2, args2)) [1, 2]
    rcases h2.2.1 with hx | hx
    · exact absurd (h2.1.mp hx) (by decide)
    · exact hx
